import Mathlib

/-!
Verification of the AI_APP_CLONER pipeline (crawler.py, extractor.py,
gen_alpha.py, run_locally.py) against its natural-language specification.

The development shallowly embeds the Python source:
* pure string manipulation (the LLM-output sanitizer, the policy marker
  checks, the scaffold assembler) is translated to executable Lean
  functions over `String` / `List Char`;
* the crawler's effectful page captures are modelled by an explicit
  environment (`CrawlEnv`) supplying the results of the external
  capabilities (page rendering, `urllib` URL resolution, the filesystem
  paths), and the BFS loop becomes a fuel-indexed state-transition
  function instrumented with ghost event lists (dequeues and enqueues)
  so that per-iteration claims can be stated;
* the DOM handed to the component classifier is an explicit tree
  (`Dom`), with BeautifulSoup-style document-order traversal.

Python string primitives (`str.strip`, `str.lower`, `in`, slicing,
`str.startswith`, `str.replace`) are re-implemented over `List Char`
so that every definition evaluates inside the kernel.
-/

/-! ## Python string primitives over `List Char` -/

/-- Characters treated as whitespace by Python's `str.strip` / `\s`
(ASCII fragment: space, tab, newline, carriage return, vertical tab,
form feed). -/
def isPySpace (c : Char) : Bool :=
  decide (c = ' ') || decide (c = '\t') || decide (c = '\n') || decide (c = '\r') ||
  decide (c = Char.ofNat 11) || decide (c = Char.ofNat 12)

/-- Python `str.strip()` on a character list. -/
def pyStrip (cs : List Char) : List Char :=
  ((cs.dropWhile isPySpace).reverse.dropWhile isPySpace).reverse

/-- Python `str.strip()`. -/
def pyStripS (s : String) : String := String.mk (pyStrip s.data)

/-- Python `str.lower()` (ASCII behaviour). -/
def pyLower (s : String) : String := String.mk (s.data.map Char.toLower)

/-- Python slicing `s[:n]`. -/
def pyTake (n : Nat) (s : String) : String := String.mk (s.data.take n)

/-- Does `cs` start with the pattern `pat`? -/
def listStartsWith : List Char → List Char → Bool
  | [], _ => true
  | _ :: _, [] => false
  | p :: ps, c :: cs => decide (p = c) && listStartsWith ps cs

/-- Does `cs` contain `pat` as a contiguous substring? -/
def containsSub (pat : List Char) : List Char → Bool
  | [] => listStartsWith pat []
  | c :: rest => listStartsWith pat (c :: rest) || containsSub pat rest

/-- Python's substring test `needle in hay`. -/
def substrIn (needle hay : String) : Bool := containsSub needle.data hay.data

/-- Python `s.startswith(pre)`. -/
def strStarts (pre s : String) : Bool := listStartsWith pre.data s.data

/-- Characters written via code points to keep source literals simple. -/
def backtickChar : Char := Char.ofNat 96

def lbraceChar : Char := Char.ofNat 123

def rbraceChar : Char := Char.ofNat 125

def dquoteChar : Char := Char.ofNat 34

/-! ## gen_alpha.py — the LLM-output sanitizer (`sanitize_llm_output`) -/

/-- Failure modes of the sanitizer (the spec's names for the two
`RuntimeError`s raised by `sanitize_llm_output`, gen_alpha.py lines
73 and 91). -/
inductive SanitizeError where
  | noJsonFound
  | unbalancedOutput
deriving DecidableEq

/-- Is the list headed by a triple-backtick fence marker? -/
def isFenceHead : List Char → Bool
  | a :: b :: c :: _ =>
    decide (a = backtickChar) && decide (b = backtickChar) && decide (c = backtickChar)
  | _ => false

/-- Lazy capture of the regex groups `([\s\S]*?)` up to the next
triple-backtick fence: the shortest prefix ending right before a
fence marker, or `none` when no closing fence exists. -/
def takeToFence : List Char → Option (List Char)
  | [] => none
  | c :: rest =>
    if isFenceHead (c :: rest) then some []
    else (takeToFence rest).map (fun g => c :: g)

/-- First alternative of the fence regex (gen_alpha.py line 53),
anchored at the current position: a fence explicitly tagged `json`
(case-insensitively), greedy `\s*`, then a lazily captured body. -/
def tryAlt1 : List Char → Option (List Char)
  | a :: b :: c :: j1 :: j2 :: j3 :: j4 :: rest =>
    if decide (a = backtickChar) && decide (b = backtickChar) && decide (c = backtickChar) &&
       decide (j1.toLower = 'j') && decide (j2.toLower = 's') &&
       decide (j3.toLower = 'o') && decide (j4.toLower = 'n') then
      takeToFence (rest.dropWhile isPySpace)
    else none
  | _ => none

/-- Second alternative of the fence regex: any fence with a lazily
captured body. -/
def tryAlt2 : List Char → Option (List Char)
  | a :: b :: c :: rest =>
    if decide (a = backtickChar) && decide (b = backtickChar) && decide (c = backtickChar) then
      takeToFence rest
    else none
  | _ => none

/-- `re.search` over the anchored alternation: at each position, the
`json`-tagged alternative is preferred; the first position with a
match wins. Returns the captured group. -/
def fenceSearch : List Char → Option (List Char)
  | [] => none
  | c :: rest =>
    match tryAlt1 (c :: rest) with
    | some g => some g
    | none =>
      match tryAlt2 (c :: rest) with
      | some g => some g
      | none => fenceSearch rest

/-- Python `text.replace(fence, emptyString)` for the triple-backtick
fence marker: delete every non-overlapping occurrence, left to right. -/
def removeFences : List Char → List Char
  | a :: b :: c :: rest =>
    if decide (a = backtickChar) && decide (b = backtickChar) && decide (c = backtickChar) then
      removeFences rest
    else a :: removeFences (b :: c :: rest)
  | cs => cs

/-- Python `text.replace(tripleQuote, singleQuote)`: collapse every
non-overlapping run of three double quotes to one. -/
def collapseTriples : List Char → List Char
  | a :: b :: c :: rest =>
    if decide (a = dquoteChar) && decide (b = dquoteChar) && decide (c = dquoteChar) then
      dquoteChar :: collapseTriples rest
    else a :: collapseTriples (b :: c :: rest)
  | cs => cs

/-- Steps 1 to 3 of `sanitize_llm_output` (gen_alpha.py lines 53 to 68):
fence extraction and strip, the short-result fallback on the original
text with fence markers removed, and triple-quote collapsing. The
result is the text in which step 4 then looks for the first brace. -/
def textToParse (text : String) : List Char :=
  let step1 :=
    match fenceSearch text.data with
    | some g => pyStrip g
    | none => pyStrip text.data
  let step2 :=
    if step1.length < 5 ∧ 10 < text.data.length then pyStrip (removeFences text.data)
    else step1
  collapseTriples step2

/-- The balance scan of gen_alpha.py lines 79 to 89: walk the text,
adding one at an opening brace and subtracting one at a closing brace,
and return the index of the character at which the depth first returns
to zero (`none` when it never does). -/
def braceScan : List Char → Int → Nat → Option Nat
  | [], _, _ => none
  | c :: rest, depth, i =>
    if c = lbraceChar then braceScan rest (depth + 1) (i + 1)
    else if c = rbraceChar then
      if depth - 1 = 0 then some i else braceScan rest (depth - 1) (i + 1)
    else braceScan rest depth (i + 1)

/-- `sanitize_llm_output` (gen_alpha.py lines 41 to 94): normalize the
model text, locate the first opening brace, and cut out the first
balanced JSON object.  The non-string input check of line 48 is
subsumed by typing. -/
def sanitize_llm_output (text : String) : Except SanitizeError String :=
  let tp := textToParse text
  let tail := tp.dropWhile (fun c => !(decide (c = lbraceChar)))
  if tail.isEmpty then Except.error SanitizeError.noJsonFound
  else
    match braceScan tail 0 0 with
    | none => Except.error SanitizeError.unbalancedOutput
    | some i => Except.ok (String.mk (tail.take (i + 1)))

/-! ## A JSON reader standing in for the external `json.loads`

`json.loads` is Python-standard-library code, external to the
repository; the fragment below implements the JSON grammar needed to
state the sanitize-then-parse round trip. -/

inductive Json where
  | null
  | bool (b : Bool)
  | num (n : Int)
  | str (s : String)
  | arr (elems : List Json)
  | obj (fields : List (String × Json))

/-- JSON insignificant whitespace. -/
def skipWs (cs : List Char) : List Char :=
  cs.dropWhile fun c =>
    decide (c = ' ') || decide (c = '\t') || decide (c = '\n') || decide (c = '\r')

/-- Body of a JSON string after the opening quote: returns the decoded
content and the remainder after the closing quote. -/
def parseStringBody : Nat → List Char → Option (List Char × List Char)
  | 0, _ => none
  | _ + 1, [] => none
  | fuel + 1, c :: rest =>
    if c = dquoteChar then some ([], rest)
    else if c = '\\' then
      match rest with
      | [] => none
      | e :: rest2 =>
        let dec :=
          if e = dquoteChar then some dquoteChar
          else if e = '\\' then some '\\'
          else if e = '/' then some '/'
          else if e = 'n' then some '\n'
          else if e = 't' then some '\t'
          else if e = 'r' then some '\r'
          else if e = 'b' then some (Char.ofNat 8)
          else if e = 'f' then some (Char.ofNat 12)
          else none
        match dec with
        | none => none
        | some d => (parseStringBody fuel rest2).map (fun p => (d :: p.1, p.2))
    else (parseStringBody fuel rest).map (fun p => (c :: p.1, p.2))

/-- A non-empty run of decimal digits and its value. -/
def parseDigits (cs : List Char) : Option (Nat × List Char) :=
  let digs := cs.takeWhile Char.isDigit
  if digs.isEmpty then none
  else some (digs.foldl (fun acc c => acc * 10 + (c.toNat - 48)) 0, cs.drop digs.length)

mutual

def parseValue : Nat → List Char → Option (Json × List Char)
  | 0, _ => none
  | fuel + 1, cs0 =>
    match skipWs cs0 with
    | [] => none
    | c :: rest =>
      if c = dquoteChar then
        match parseStringBody (rest.length + 1) rest with
        | some (content, rest2) => some (Json.str (String.mk content), rest2)
        | none => none
      else if c = lbraceChar then
        match skipWs rest with
        | d :: rest2 =>
          if d = rbraceChar then some (Json.obj [], rest2)
          else
            match parseMembers fuel (d :: rest2) with
            | some (ms, rest3) => some (Json.obj ms, rest3)
            | none => none
        | [] => none
      else if c = '[' then
        match skipWs rest with
        | d :: rest2 =>
          if d = ']' then some (Json.arr [], rest2)
          else
            match parseElems fuel (d :: rest2) with
            | some (es, rest3) => some (Json.arr es, rest3)
            | none => none
        | [] => none
      else if c = 't' then
        match rest with
        | 'r' :: 'u' :: 'e' :: rest2 => some (Json.bool true, rest2)
        | _ => none
      else if c = 'f' then
        match rest with
        | 'a' :: 'l' :: 's' :: 'e' :: rest2 => some (Json.bool false, rest2)
        | _ => none
      else if c = 'n' then
        match rest with
        | 'u' :: 'l' :: 'l' :: rest2 => some (Json.null, rest2)
        | _ => none
      else if c = '-' then
        match parseDigits rest with
        | some (n, rest2) => some (Json.num (-(n : Int)), rest2)
        | none => none
      else
        match parseDigits (c :: rest) with
        | some (n, rest2) => some (Json.num (n : Int), rest2)
        | none => none

def parseMembers : Nat → List Char → Option (List (String × Json) × List Char)
  | 0, _ => none
  | fuel + 1, cs =>
    match skipWs cs with
    | c :: rest =>
      if c = dquoteChar then
        match parseStringBody (rest.length + 1) rest with
        | some (key, rest2) =>
          match skipWs rest2 with
          | ':' :: rest3 =>
            match parseValue fuel rest3 with
            | some (v, rest4) =>
              match skipWs rest4 with
              | ',' :: rest5 =>
                match parseMembers fuel rest5 with
                | some (ms, rest6) => some ((String.mk key, v) :: ms, rest6)
                | none => none
              | d :: rest5 =>
                if d = rbraceChar then some ([(String.mk key, v)], rest5) else none
              | [] => none
            | none => none
          | _ => none
        | none => none
      else none
    | [] => none

def parseElems : Nat → List Char → Option (List Json × List Char)
  | 0, _ => none
  | fuel + 1, cs =>
    match parseValue fuel cs with
    | some (v, rest) =>
      match skipWs rest with
      | ',' :: rest2 =>
        match parseElems fuel rest2 with
        | some (es, rest3) => some (v :: es, rest3)
        | none => none
      | ']' :: rest2 => some ([v], rest2)
      | _ => none
    | none => none

end

/-- Parse a complete JSON document (the stand-in for `json.loads`). -/
def json_loads (s : String) : Option Json :=
  match parseValue (s.length + 1) s.data with
  | some (j, rest) => if (skipWs rest).isEmpty then some j else none
  | none => none

/-! ## gen_alpha.py — policy check, default file set, scaffold assembly -/

/-- The proprietary-name marker list of gen_alpha.py lines 18 to 21. -/
def GEN_MARKERS : List String :=
  ["instagram", "facebook", "whatsapp", "uber", "airbnb",
   "tiktok", "twitter", "snapchat", "x.com"]

/-- One aggregated page as `likely_proprietary_spec` sees it: only the
title is consulted.  `none` models a missing or null `title` entry. -/
structure UxPage where
  title : Option String
deriving DecidableEq

/-- The aggregated UX specification as `generate_scaffold` consumes it. -/
structure UxSpec where
  domain : Option String
  pages : List UxPage
deriving DecidableEq

/-- `likely_proprietary_spec` (gen_alpha.py lines 24 to 34): marker
substring test on the lowercased domain, then on every lowercased page
title.  `get(..) or emptyString` maps both a missing entry and an
empty one to the empty string, which `Option.getD` reproduces. -/
def likely_proprietary_spec (spec : UxSpec) : Bool :=
  if GEN_MARKERS.any (fun x => substrIn x (pyLower (spec.domain.getD ""))) then true
  else spec.pages.any (fun p => GEN_MARKERS.any (fun x => substrIn x (pyLower (p.title.getD ""))))

def defaultServerPy : String :=
  "import os\nfrom flask import Flask, send_from_directory, jsonify, request\nfrom flask_cors import CORS\n\n# Set static_folder=None, relying solely on serve_frontend for asset handling.\napp = Flask(__name__, static_folder=None)\nCORS(app)\n\n@app.route(\x27/api/data\x27, methods=[\x27GET\x27])\ndef api_data():\n    sample = \x7b\x27message\x27: \x27Hello from Flask backend\x27, \x27ok\x27: True\x7d\n    return jsonify(sample)\n\n@app.route(\x27/api/<path:subpath>\x27, methods=[\x27GET\x27,\x27POST\x27])\ndef api_proxy(subpath):\n    # Simple example endpoint: echoes path and query/body for easy testing.\n    info = \x7b\n        \x27requested_path\x27: subpath,\n        \x27method\x27: request.method,\n        \x27args\x27: request.args.to_dict(),\n    \x7d\n    try:\n        info[\x27json\x27] = request.get_json(silent=True)\n    except Exception:\n        info[\x27json\x27] = None\n    return jsonify(info)\n\n@app.route(\x27/\x27, defaults=\x7b\x27path\x27: \x27\x27\x7d)\n@app.route(\x27/<path:path>\x27)\ndef serve_frontend(path):\n    \n    Serves the built frontend assets (JS/CSS/Index.html) from the frontend/dist directory.\n    This acts as the Single Page Application (SPA) catch-all.\n    \n    # Define the directory where Vite places its production output\n    dist_dir = os.path.join(os.getcwd(), \x27frontend\x27, \x27dist\x27)\n    \n    # Construct the full path to the requested file (e.g., assets/index-xxx.js)\n    requested_file = os.path.join(dist_dir, path)\n\n    # 1. If a specific asset file is requested and exists (handles assets/foo.js)\n    if path != \x27\x27 and os.path.exists(requested_file):\n        # Serve the file by using its directory and filename\n        directory = os.path.dirname(requested_file)\n        filename = os.path.basename(requested_file)\n        return send_from_directory(directory, filename)\n\n    # 2. If path is root or asset not found, serve the main index.html (SPA fallback)\n    index_path = os.path.join(dist_dir, \x27index.html\x27)\n    if os.path.exists(index_path):\n        return send_from_directory(dist_dir, \x27index.html\x27)\n        \n    # 3. Fallback message if the build hasn\x27t been run\n    return jsonify(\x7b\x27message\x27: \x27Frontend build not found. Run `cd frontend && npm install && npm run build`.\x27\x7d), 200\n\nif __name__ == \x27__main__\x27:\n    # Use 0.0.0.0 for easier local testing in containers/VMs if needed\n    app.run(host=\x270.0.0.0\x27, port=int(os.environ.get(\x27PORT\x27, 5000)), debug=True)\n"

def defaultRequirements : String :=
  "flask\nflask_cors\n"

def defaultPackageJson : String :=
  "\x7b\n  \"name\": \"react-app\",\n  \"version\": \"1.0.0\",\n  \"private\": true,\n  \"scripts\": \x7b\n    \"dev\": \"vite\",\n    \"build\": \"vite build\",\n    \"preview\": \"vite preview\"\n  \x7d,\n  \"dependencies\": \x7b\n    \"react\": \"^18.0.0\",\n    \"react-dom\": \"^18.0.0\"\n  \x7d,\n  \"devDependencies\": \x7b\n    \"vite\": \"^5.0.0\",\n    \"@vitejs/plugin-react\": \"^4.0.0\"\n  \x7d\n\x7d"

def defaultViteConfig : String :=
  "import \x7b defineConfig \x7d from \x27vite\x27;\nimport react from \x27@vitejs/plugin-react\x27;\nexport default defineConfig(\x7b plugins: [react()] \x7d);\n"

def defaultIndexHtml : String :=
  "<!doctype html>\n<html>\n  <head>\n    <meta charset=\"utf-8\" />\n    <meta name=\"viewport\" content=\"width=device-width, initial-scale=1.0\" />\n    <title>Generated React App</title>\n  </head>\n  <body>\n    <div id=\"root\"></div>\n    <!-- Vite will inject the production script reference here during \x27npm run build\x27 -->\n  </body>\n</html>\n"

def defaultMainJsx : String :=
  "import React from \x27react\x27;\nimport \x7b createRoot \x7d from \x27react-dom/client\x27;\nimport App from \x27./App.jsx\x27;\n\ncreateRoot(document.getElementById(\x27root\x27)).render(\n  <React.StrictMode>\n    <App />\n  </React.StrictMode>\n);\n"

def defaultAppJsx : String :=
  "import React, \x7buseEffect, useState\x7d from \x27react\x27;\nimport AutoLayout from \x27./components/AutoLayout.jsx\x27;\n\nexport default function App()\x7b\n  const [data, setData] = useState(null);\n  useEffect(()=>\x7b\n    fetch(\x27/api/data\x27)\n      .then(r=>r.json())\n      .then(setData)\n      .catch(e=>setData(\x7berror: String(e)\x7d));\n  \x7d, []);\n  return (\n    <AutoLayout>\n      <h1>Generated React Frontend</h1>\n      <p>This is a functional fallback application. If the LLM generation was successful, this content should be replaced by the design extracted from the UX spec.</p>\n      <pre>\x7bJSON.stringify(data, null, 2)\x7d</pre>\n    </AutoLayout>\n  );\n\x7d\n"

def defaultAutoLayout : String :=
  "import React from \x27react\x27;\nexport default function AutoLayout(\x7bchildren\x7d)\x7b\n  return (\n    <div style=\x7b\x7bfontFamily:\x27Arial, sans-serif\x27, padding:20\x7d\x7d>\n      \x7bchildren\x7d\n    </div>\n  );\n\x7d\n"

def defaultReadme : String :=
  "# React + Flask Generated App\\n\\n## Backend\\n1. Create a Python virtual environment and activate it.\\n2. Install dependencies: `pip install -r requirements.txt`\\n3. Run backend: `python server.py`\\n\\nThe backend exposes `/api/data` and `/api/<path>` endpoints, and serves the frontend build from `frontend/dist` if present.\\n\\n## Frontend\\n1. `cd frontend`\\n2. `npm install`\\n3. `npm run build` to create the production files.\\n4. Then run the backend to serve the built app.\\n"

def DEFAULT_FILES : List (String × String) :=
  [("server.py", defaultServerPy),
   ("requirements.txt", defaultRequirements),
   ("frontend/package.json", defaultPackageJson),
   ("frontend/vite.config.js", defaultViteConfig),
   ("frontend/index.html", defaultIndexHtml),
   ("frontend/src/main.jsx", defaultMainJsx),
   ("frontend/src/App.jsx", defaultAppJsx),
   ("frontend/src/components/AutoLayout.jsx", defaultAutoLayout),
   ("README.md", defaultReadme)]

/-- Dict item assignment `m[k] = v`: replace the binding if the key is
present, otherwise append it (Python dicts preserve insertion order). -/
def setKey : List (String × String) → String → String → List (String × String)
  | [], k, v => [(k, v)]
  | p :: t, k, v => if p.1 = k then (k, v) :: t else p :: setKey t k v

/-- Dict lookup returning `none` for a missing key. -/
def getKey : List (String × String) → String → Option String
  | [], _ => none
  | p :: t, k => if p.1 = k then some p.2 else getKey t k

/-- The overlay loop of gen_alpha.py lines 386 to 393: start from a
copy of `DEFAULT_FILES` and write every model-provided entry over it.
Model values are already rendered to strings (the source stringifies
dict or list values with `json.dumps` and everything else with `str`). -/
def overlayModel (modelFiles : List (String × String)) : List (String × String) :=
  modelFiles.foldl (fun acc kv => setKey acc kv.1 kv.2) DEFAULT_FILES

/-- The required frontend file list of gen_alpha.py lines 405 to 412. -/
def NEEDED_FRONTEND : List String :=
  ["frontend/package.json",
   "frontend/vite.config.js",
   "frontend/index.html",
   "frontend/src/main.jsx",
   "frontend/src/App.jsx",
   "frontend/src/components/AutoLayout.jsx"]

/-- The frontend-completion loop of gen_alpha.py lines 413 to 415:
default any missing required frontend file individually. -/
def fillFrontend : List String → List (String × String) → List (String × String)
  | [], m => m
  | fn :: fns, m =>
    fillFrontend fns
      (match getKey m fn with
       | some _ => m
       | none => setKey m fn ((getKey DEFAULT_FILES fn).getD ""))

/-- The `server.py` validation of gen_alpha.py lines 396 to 398:
a missing, short (stripped length below 50), or line-break-free
`server.py` is replaced wholesale by the default. -/
def serverFixed (f0 : List (String × String)) : List (String × String) :=
  let sp := (getKey f0 "server.py").getD ""
  if (pyStripS sp).data.length < 50 ∨ substrIn "\n" sp = false then
    setKey f0 "server.py" defaultServerPy
  else f0

/-- The `requirements.txt` validation of gen_alpha.py lines 401 to 402:
an absent or blank entry is replaced by the default. -/
def requirementsFixed (f1 : List (String × String)) : List (String × String) :=
  match getKey f1 "requirements.txt" with
  | none => setKey f1 "requirements.txt" defaultRequirements
  | some r =>
    if pyStripS r = "" then setKey f1 "requirements.txt" defaultRequirements else f1

/-- The assembly section of `generate_scaffold` (gen_alpha.py lines 386
to 415): overlay the model files on the defaults, replace a missing,
short, or single-line `server.py` with the default, default an absent
or blank `requirements.txt`, and fill in the required frontend files. -/
def assembleFiles (modelFiles : List (String × String)) : List (String × String) :=
  fillFrontend NEEDED_FRONTEND (requirementsFixed (serverFixed (overlayModel modelFiles)))

/-- The outcome of the optional model call: the library was not
importable (`_OLLAMA_AVAILABLE` false, so no call is made), the call
raised (caught at gen_alpha.py lines 379 to 382), or it returned a
file map. -/
inductive ModelOutcome where
  | unavailable
  | failed (msg : String)
  | success (files : List (String × String))

/-- Observable result of `generate_scaffold`: the raised policy error
if any, whether the model was invoked, whether the zip artifact was
written, and the assembled file map. -/
structure GenResult where
  error : Option String
  modelCalled : Bool
  artifactWritten : Bool
  files : List (String × String)
deriving DecidableEq

def crawlPolicyMessage : String :=
  "Target domain appears to be a large proprietary app. Aborting (policy)."

def genPolicyMessage : String :=
  "Proprietary app detected — cannot clone or reproduce a verbatim UI."

/-- `generate_scaffold` (gen_alpha.py lines 365 to 423): the policy
check runs first and aborts before the prompt is built, the model is
called, or anything is written; otherwise a failed or unavailable
model yields the empty file map and assembly proceeds. -/
def generate_scaffold (spec : UxSpec) (model : ModelOutcome) : GenResult :=
  if likely_proprietary_spec spec then
    { error := some genPolicyMessage, modelCalled := false,
      artifactWritten := false, files := [] }
  else
    let modelFiles :=
      match model with
      | .unavailable => []
      | .failed _ => []
      | .success fs => fs
    { error := none
      modelCalled := match model with | .unavailable => false | _ => true
      artifactWritten := true
      files := assembleFiles modelFiles }

/-! ## crawler.py — robots probe, policy gate, bounded BFS crawl -/

/-- Outcome of the `requests.get` probe for `robots.txt`: a response
with a status code and body, or a raised network error. -/
inductive RobotsResponse where
  | ok (status : Nat) (body : String)
  | netError
deriving DecidableEq

/-- `allowed_by_robots` (crawler.py lines 11 to 24): any non-200
response or network error is allow (fail-open); a 200 body containing
the literal `disallow: /` after lowercasing is reject. -/
def allowed_by_robots (resp : RobotsResponse) : Bool :=
  match resp with
  | .netError => true
  | .ok status body =>
    if status ≠ 200 then true
    else if substrIn "disallow: /" (pyLower body) then false
    else true

/-- The proprietary-domain marker list of crawler.py line 27. -/
def PROPRIETARY_MARKERS_CRAWLER : List String :=
  ["instagram.com", "facebook.com", "whatsapp.com", "uber.com", "airbnb.com",
   "tiktok.com", "twitter.com", "x.com", "snapchat.com"]

/-- Everything the crawl loop obtains from the external capabilities
for one page visit: the `href` attributes of the page's anchors in
document order, the extracted text for the snippet, and whether the
screenshot file exists when the record is built.  A failed navigation
or content retrieval surfaces as empty `hrefs` and `snippetText`
(the source falls back to the empty document). -/
structure PageFetch where
  hrefs : List String
  snippetText : String
  screenshotExists : Bool
deriving DecidableEq

/-- The external capabilities the crawler calls out to: `urlparse(.).netloc`,
`urljoin`, the rendering session, and the absolute output paths the
records store. -/
structure CrawlEnv where
  netloc : String → String
  urljoin : String → String → String
  fetch : String → PageFetch
  htmlPathOf : String → String
  shotPathOf : String → String

/-- `likely_proprietary_domain` (crawler.py lines 28 to 30): marker
substring test on the lowercased netloc. -/
def likely_proprietary_domain (env : CrawlEnv) (url : String) : Bool :=
  PROPRIETARY_MARKERS_CRAWLER.any fun k => substrIn k (pyLower (env.netloc url))

/-- One crawl-index record (crawler.py lines 92 to 98).  The `html`
field is typed as an option only so that its nullability can be
stated; the source stores a path unconditionally, while `screenshot`
is null when the screenshot file does not exist. -/
structure PageRecord where
  url : String
  screenshot : Option String
  html : Option String
  snippet : String
  links : List String
deriving DecidableEq

/-- Python `joined.split(sep)[0]` for the fragment separator: the text
before the first `#`. -/
def stripFragment (s : String) : String := String.mk (s.data.takeWhile (fun c => c ≠ '#'))

/-- Add one URL to the link set (`links.add`): no duplicates. -/
def addLink (acc : List String) (l : String) : List String :=
  if l ∈ acc then acc else acc ++ [l]

/-- The link-extraction loop of crawler.py lines 82 to 90: drop
`javascript:` and pure-fragment hrefs, resolve against the page URL,
keep only hosts equal to the start URL's host, and collect the
fragment-stripped results as a set. -/
def extractLinks (env : CrawlEnv) (startUrl pageUrl : String) (hrefs : List String) :
    List String :=
  hrefs.foldl
    (fun acc href =>
      if strStarts "javascript:" href || strStarts "#" href then acc
      else
        let joined := env.urljoin pageUrl href
        if env.netloc joined = env.netloc startUrl then addLink acc (stripFragment joined)
        else acc)
    []

/-- The record stored in `results[url]` (crawler.py lines 92 to 98):
`html` is always the absolute html path; `screenshot` is the absolute
screenshot path exactly when that file exists; the text snippet is
truncated to 2000 characters. -/
def buildRecord (env : CrawlEnv) (startUrl url : String) : PageRecord :=
  let f := env.fetch url
  { url := url
    screenshot := if f.screenshotExists then some (env.shotPathOf url) else none
    html := some (env.htmlPathOf url)
    snippet := pyTake 2000 f.snippetText
    links := extractLinks env startUrl url f.hrefs }

/-- A queued `(url, depth)` task. -/
structure CrawlTask where
  url : String
  depth : Nat
deriving DecidableEq

/-- Ghost record of one executed enqueue: the URL and depth pushed,
the sizes of `visited` and `queue` at that moment, and whether the URL
was already pending in the queue or already visited. -/
structure EnqEvent where
  url : String
  depth : Nat
  visitedLen : Nat
  queueLen : Nat
  alreadyInQueue : Bool
  alreadyVisited : Bool
deriving DecidableEq

/-- The crawl loop state: `visited`, the FIFO `queue`, the `results`
mapping in insertion order, plus ghost event logs of every enqueue and
every dequeue. -/
structure CrawlState where
  visited : List String
  queue : List CrawlTask
  results : List (String × PageRecord)
  enq : List EnqEvent
  deq : List CrawlTask
deriving DecidableEq

/-- The enqueue loop of crawler.py lines 102 to 104: push each
extracted link not yet visited while the page budget
`len(visited) + len(queue) < max_pages` still holds. -/
def enqueueLinks (maxPages depth : Nat) (links : List String) (s : CrawlState) :
    CrawlState :=
  links.foldl
    (fun st l =>
      if l ∉ st.visited ∧ st.visited.length + st.queue.length < maxPages then
        { st with
          queue := st.queue ++ [⟨l, depth + 1⟩]
          enq := st.enq ++ [⟨l, depth + 1, st.visited.length, st.queue.length,
                            st.queue.any (fun t => decide (t.url = l)),
                            decide (l ∈ st.visited)⟩] }
      else st)
    s

/-- One iteration of the while loop (crawler.py lines 49 to 104):
dequeue, skip visited or too-deep tasks, capture the page, store the
record, mark visited, and enqueue the extracted links. -/
def crawlStep (env : CrawlEnv) (startUrl : String) (maxPages maxDepth : Nat)
    (s : CrawlState) : CrawlState :=
  match s.queue with
  | [] => s
  | t :: rest =>
    let s1 : CrawlState := { s with queue := rest, deq := s.deq ++ [t] }
    if t.url ∈ s1.visited ∨ maxDepth < t.depth then s1
    else
      let pr := buildRecord env startUrl t.url
      let s2 : CrawlState :=
        { s1 with
          results := s1.results ++ [(t.url, pr)]
          visited := s1.visited ++ [t.url] }
      enqueueLinks maxPages t.depth pr.links s2

/-- The while loop, fuel-indexed: `crawlLoop … fuel s` is the state
after at most `fuel` iterations, so quantifying over `fuel` ranges
over every intermediate point of the traversal.  The guard is the
source's `while queue and len(visited) < max_pages`. -/
def crawlLoop (env : CrawlEnv) (startUrl : String) (maxPages maxDepth : Nat) :
    Nat → CrawlState → CrawlState
  | 0, s => s
  | fuel + 1, s =>
    if s.queue ≠ [] ∧ s.visited.length < maxPages then
      crawlLoop env startUrl maxPages maxDepth fuel (crawlStep env startUrl maxPages maxDepth s)
    else s

/-- The initial state: the queue seeded with `(start_url, 0)`. -/
def initState (startUrl : String) : CrawlState :=
  { visited := [], queue := [⟨startUrl, 0⟩], results := [], enq := [], deq := [] }

/-- `crawl` (crawler.py lines 32 to 107).  The robots response the
start host would serve is passed in, but the robots check of lines
34 to 35 is commented out in the source, so the parameter is never
consulted; only the proprietary-domain gate of lines 37 to 38 runs
before the traversal. -/
def crawl (robots : RobotsResponse) (env : CrawlEnv) (startUrl : String)
    (maxPages maxDepth fuel : Nat) : Except String CrawlState :=
  if likely_proprietary_domain env startUrl then
    Except.error crawlPolicyMessage
  else
    Except.ok (crawlLoop env startUrl maxPages maxDepth fuel (initState startUrl))

/-! ## extractor.py — DOM model and `extract_components_from_html` -/

/-- A parsed markup node: a text node, or an element with a tag, an
attribute list, and children in document order. -/
inductive Dom where
  | textNode (s : String)
  | elem (tag : String) (attrs : List (String × String)) (children : List Dom)

/-- Tag name of a node (text nodes have none). -/
def Dom.tag : Dom → String
  | .textNode _ => ""
  | .elem t _ _ => t

/-- BeautifulSoup attribute lookup `node.get(key)`. -/
def Dom.attr : Dom → String → Option String
  | .textNode _, _ => none
  | .elem _ attrs _, k => getKey attrs k

mutual

/-- All strings of the subtree, in document order (`._all_strings`). -/
def domStrings : Dom → List String
  | .textNode s => [s]
  | .elem _ _ cs => domStringsL cs

def domStringsL : List Dom → List String
  | [] => []
  | d :: ds => domStrings d ++ domStringsL ds

end

mutual

/-- The descendant elements of a node, in document (pre-)order: the
traversal underlying `find_all`. -/
def elemsUnder : Dom → List Dom
  | .textNode _ => []
  | .elem _ _ cs => elemsL cs

def elemsL : List Dom → List Dom
  | [] => []
  | d :: ds =>
    (match d with
     | .elem _ _ _ => [d]
     | .textNode _ => []) ++ elemsUnder d ++ elemsL ds

end

/-- `node.get_text()`: concatenation of all subtree strings. -/
def getText (d : Dom) : String := String.join (domStrings d)

/-- `node.get_text(strip=True)`: each string stripped before joining. -/
def getTextStrip (d : Dom) : String := String.join ((domStrings d).map pyStripS)

/-- BeautifulSoup splits a `class` attribute on whitespace into a list;
`node.get(..) or []` maps an absent attribute to the empty list. -/
def classListOf (b : Dom) : List String :=
  match b.attr "class" with
  | none => []
  | some s => ((s.data.splitOnP isPySpace).map String.mk).filter (fun w => w ≠ "")

/-- One field of a form entry (extractor.py lines 30 to 35). -/
structure FormField where
  name : Option String
  fieldType : String
  placeholder : String
  required : Bool

/-- The tagged component records emitted by the classifier. -/
inductive Component where
  | clickable (tag role inputType text : String) (id : Option String) (classes : List String)
  | form (id : Option String) (action : Option String) (method : String)
      (fields : List FormField)
  | nav (links : List String)
  | list (numItems : Nat) (sampleItems : List String)
  | table (headers : List String) (sampleRows : List (List String))
  | images (count : Nat) (samples : List (Option String))
  | headings (items : List (String × String))

/-- Does the element match `find_all(["button", "a", "input"])`? -/
def isBAI (d : Dom) : Bool :=
  decide (d.tag = "button") || decide (d.tag = "a") || decide (d.tag = "input")

/-- The truthiness chain of extractor.py line 12:
`b.get_text() or b.get(value) or b.get(aria-label) or emptyString`
(both a missing attribute and an empty string are falsy). -/
def clickRawText (b : Dom) : String :=
  if getText b ≠ "" then getText b
  else if (b.attr "value").getD "" ≠ "" then (b.attr "value").getD ""
  else (b.attr "aria-label").getD ""

/-- One clickable entry (extractor.py lines 10 to 24). -/
def clickableOf (b : Dom) : Component :=
  Component.clickable b.tag
    (if b.tag = "a" then "link" else if b.tag = "button" then "button" else "input")
    ((b.attr "type").getD "")
    (pyTake 200 (pyStripS (clickRawText b)))
    (b.attr "id")
    (classListOf b)

/-- Matches `form.find_all(["input", "textarea", "select"])`. -/
def isFieldTag (d : Dom) : Bool :=
  decide (d.tag = "input") || decide (d.tag = "textarea") || decide (d.tag = "select")

/-- One form field (extractor.py lines 30 to 35): the type falls back
to the tag name, `required` is Python truthiness of the attribute. -/
def fieldOf (inp : Dom) : FormField :=
  { name := inp.attr "name"
    fieldType := if (inp.attr "type").getD "" ≠ "" then (inp.attr "type").getD "" else inp.tag
    placeholder := (inp.attr "placeholder").getD ""
    required := (inp.attr "required").getD "" ≠ "" }

/-- One form entry (extractor.py lines 27 to 42). -/
def formOf (f : Dom) : Component :=
  Component.form (f.attr "id") (f.attr "action")
    (if (f.attr "method").getD "" ≠ "" then (f.attr "method").getD "" else "get")
    (((elemsUnder f).filter isFieldTag).map fieldOf)

/-- One nav entry (extractor.py lines 45 to 51): up to 30 anchor texts. -/
def navOf (n : Dom) : Component :=
  Component.nav
    ((((elemsUnder n).filter fun a =>
        decide (a.tag = "a") && (a.attr "href").isSome).map getTextStrip).take 30)

/-- One list entry (extractor.py lines 54 to 60). -/
def listOf (u : Dom) : Component :=
  let items := ((elemsUnder u).filter fun li => decide (li.tag = "li")).map getTextStrip
  Component.list items.length (items.take 10)

/-- One table entry (extractor.py lines 63 to 72). -/
def tableOf (t : Dom) : Component :=
  Component.table
    (((elemsUnder t).filter fun th => decide (th.tag = "th")).map getTextStrip)
    ((((elemsUnder t).filter fun tr => decide (tr.tag = "tr")).take 5).map fun tr =>
      ((elemsUnder tr).filter fun td => decide (td.tag = "td")).map getTextStrip)

/-- The aggregate images entry (extractor.py lines 75 to 81), present
only when the page has `img` elements. -/
def imagesComps (all : List Dom) : List Component :=
  let imgs := all.filter fun i => decide (i.tag = "img")
  if imgs.isEmpty then []
  else [Component.images imgs.length ((imgs.take 10).map fun i => i.attr "src")]

/-- The aggregate headings entry (extractor.py lines 84 to 89):
level-major scan over `h1..h4`, text truncated to 150 characters,
up to 50 items. -/
def headingsComps (all : List Dom) : List Component :=
  let hs :=
    (["h1", "h2", "h3", "h4"].map fun h =>
      (all.filter fun t => decide (t.tag = h)).map fun t =>
        (h, pyTake 150 (getTextStrip t))).flatten
  if hs.isEmpty then [] else [Component.headings (hs.take 50)]

/-- Feature detection (extractor.py lines 92 to 97). -/
def featuresOf (all : List Dom) : List String :=
  (if all.any fun i => decide (i.tag = "input") && decide (i.attr "type" = some "password")
   then ["authentication/login_form_detected"] else [])
  ++ (if (all.any fun i => decide (i.tag = "input") && decide (i.attr "type" = some "search"))
       || (all.any fun i => decide (i.tag = "input") && decide (i.attr "name" = some "q"))
      then ["search_feature_detected"] else [])

/-- `soup.title.string`: the single string child, if the element has
exactly one and it is a text node. -/
def domSingleString : Dom → Option String
  | .elem _ _ [Dom.textNode s] => some s
  | _ => none

/-- `soup.title.string if soup.title else emptyString` (extractor.py
line 7): `some emptyString` when no title element exists, otherwise
the first title element's single string (or `none`). -/
def titleOf (all : List Dom) : Option String :=
  match all.filter fun t => decide (t.tag = "title") with
  | [] => some ""
  | t :: _ => domSingleString t

/-- The classifier's per-page output. -/
structure PageUxRecord where
  url : Option String
  title : Option String
  components : List Component
  features : List String

/-- `extract_components_from_html` (extractor.py lines 5 to 99): the
independent pass results concatenated in the source's scan order
(clickables, forms, navs, lists, tables, images, headings), plus
feature detection. -/
def extract_components_from_html (doc : List Dom) (url : Option String) : PageUxRecord :=
  let all := elemsL doc
  { url := url
    title := titleOf all
    components :=
      ((all.filter isBAI).map clickableOf)
      ++ ((all.filter fun f => decide (f.tag = "form")).map formOf)
      ++ ((all.filter fun n => decide (n.tag = "nav")).map navOf)
      ++ ((all.filter fun u => decide (u.tag = "ul") || decide (u.tag = "ol")).map listOf)
      ++ ((all.filter fun t => decide (t.tag = "table")).map tableOf)
      ++ imagesComps all
      ++ headingsComps all
    features := featuresOf all }

/-- Recognizer for clickable entries. -/
def Component.isClickable : Component → Bool
  | .clickable _ _ _ _ _ _ => true
  | _ => false

/-! ## Helper lemmas -/

theorem dropBrace_nil_iff (cs : List Char) :
    (cs.dropWhile (fun c => !(decide (c = lbraceChar)))).isEmpty = true ↔
      lbraceChar ∉ cs := by
  rw [List.isEmpty_iff, List.dropWhile_eq_nil_iff]
  constructor
  · intro h hmem
    have := h _ hmem
    simp at this
  · intro h x hx
    simp only [Bool.not_eq_true', decide_eq_false_iff_not]
    intro he
    exact h (he ▸ hx)

/-! ## C6, C7 — sanitizer claims -/

/-- C6: `sanitize_llm_output` fails with `NoJsonFound` exactly when the
text remaining after fence extraction and normalization (steps 1 to 3,
`textToParse`) contains no opening brace; it fails with
`UnbalancedOutput` exactly when an opening brace exists but the
brace-depth scan from the first one never returns to zero; and the
unbalanced input `"{ \"a\": 1 "` fails with `UnbalancedOutput`. -/
theorem C6_sanitizer_failures (text : String) :
    (sanitize_llm_output text = Except.error SanitizeError.noJsonFound ↔
      lbraceChar ∉ textToParse text) ∧
    (sanitize_llm_output text = Except.error SanitizeError.unbalancedOutput ↔
      (lbraceChar ∈ textToParse text ∧
       braceScan ((textToParse text).dropWhile (fun c => !(decide (c = lbraceChar)))) 0 0
         = none)) ∧
    sanitize_llm_output "\x7b \"a\": 1 " = Except.error SanitizeError.unbalancedOutput := by
  refine ⟨?_, ?_, rfl⟩
  · unfold sanitize_llm_output
    by_cases h : ((textToParse text).dropWhile (fun c => !(decide (c = lbraceChar)))).isEmpty
    · simp only [h, if_true]
      exact iff_of_true (by simp) ((dropBrace_nil_iff (textToParse text)).mp h)
    · simp only [h, if_false, Bool.false_eq_true]
      have hmem : lbraceChar ∈ textToParse text := by
        by_contra hc
        exact h ((dropBrace_nil_iff (textToParse text)).mpr hc)
      cases hb : braceScan ((textToParse text).dropWhile (fun c => !(decide (c = lbraceChar)))) 0 0 with
      | none => simp [hmem]
      | some i => simp [hmem]
  · unfold sanitize_llm_output
    by_cases h : ((textToParse text).dropWhile (fun c => !(decide (c = lbraceChar)))).isEmpty
    · simp only [h, if_true]
      have hnm := (dropBrace_nil_iff (textToParse text)).mp h
      constructor
      · intro he
        simp at he
      · rintro ⟨hmem, -⟩
        exact absurd hmem hnm
    · simp only [h, if_false, Bool.false_eq_true]
      have hmem : lbraceChar ∈ textToParse text := by
        by_contra hc
        exact h ((dropBrace_nil_iff (textToParse text)).mpr hc)
      cases hb : braceScan ((textToParse text).dropWhile (fun c => !(decide (c = lbraceChar)))) 0 0 with
      | none => simp [hmem, hb]
      | some i => simp [hmem, hb]

/-- C7: on the prefixed, json-fenced input, sanitize succeeds with the
inner object text, and parsing that text yields exactly the object
mapping `files` to the map from `a.txt` to `x`. -/
theorem C7_sanitize_roundtrip :
    sanitize_llm_output "Sure! ```json\n\x7b\"files\":\x7b\"a.txt\":\"x\"\x7d\x7d\n```" =
        Except.ok "\x7b\"files\":\x7b\"a.txt\":\"x\"\x7d\x7d" ∧
    json_loads "\x7b\"files\":\x7b\"a.txt\":\"x\"\x7d\x7d" =
        some (Json.obj [("files", Json.obj [("a.txt", Json.str "x")])]) :=
  ⟨rfl, rfl⟩

/-! ## C3 — robots policy -/

/-- A host whose `robots.txt` answers 200 with a disallow-everything
body. -/
def c3Robots : RobotsResponse := RobotsResponse.ok 200 "User-agent: *\nDisallow: /"

/-- A concrete crawl environment for a non-proprietary host. -/
def c3Env : CrawlEnv :=
  { netloc := fun _ => "example.com"
    urljoin := fun _ href => href
    fetch := fun _ => { hrefs := [], snippetText := "", screenshotExists := true }
    htmlPathOf := fun u => u
    shotPathOf := fun u => u }

/-- C3 counterexample: the start host serves a 200 `robots.txt` whose
body contains `disallow: /` (so `allowed_by_robots` classifies it as
disallowed), yet `crawl` proceeds and captures a page — the robots
check of crawler.py lines 34 to 35 is commented out, so the pipeline
never rejects on robots grounds. -/
theorem C3_robots_counterexample :
    allowed_by_robots c3Robots = false ∧
    (crawl c3Robots c3Env "https://example.com/" 5 2 5).toOption.map
        (fun st => st.results.map Prod.fst) = some ["https://example.com/"] := by
  constructor
  · decide
  · rfl

/-- C3 amended: `allowed_by_robots` itself behaves as described — a
network error is allow, a non-200 status is allow (fail-open), and a
200 body is disallowed exactly when its lowercasing contains the
literal `disallow: /` — but `crawl` never consults it: its result is
independent of the robots response. -/
theorem C3_robots_amended (status : Nat) (body : String) (r1 r2 : RobotsResponse)
    (env : CrawlEnv) (startUrl : String) (maxPages maxDepth fuel : Nat) :
    allowed_by_robots RobotsResponse.netError = true ∧
    (status ≠ 200 → allowed_by_robots (RobotsResponse.ok status body) = true) ∧
    (allowed_by_robots (RobotsResponse.ok status body) = false ↔
      (status = 200 ∧ substrIn "disallow: /" (pyLower body) = true)) ∧
    crawl r1 env startUrl maxPages maxDepth fuel =
      crawl r2 env startUrl maxPages maxDepth fuel := by
  refine ⟨rfl, ?_, ?_, rfl⟩
  · intro h
    simp [allowed_by_robots, h]
  · unfold allowed_by_robots
    by_cases h : status = 200
    · subst h
      by_cases hs : substrIn "disallow: /" (pyLower body) = true
      · simp [hs]
      · simp [hs]
    · simp [h]

/-- Witness for the amended C3 at concrete inputs. -/
theorem C3_robots_amended_witness :
    allowed_by_robots (RobotsResponse.ok 404 "disallow: /") = true ∧
    (allowed_by_robots (RobotsResponse.ok 200 "X") = false ↔
      (200 = 200 ∧ substrIn "disallow: /" (pyLower "X") = true)) :=
  ⟨(C3_robots_amended 404 "disallow: /" RobotsResponse.netError RobotsResponse.netError
      c3Env "u" 1 1 1).2.1 (by decide),
   (C3_robots_amended 200 "X" RobotsResponse.netError RobotsResponse.netError
      c3Env "u" 1 1 1).2.2.1⟩

/-! ## C4 — policy rejections abort before the expensive stage -/

/-- C4: if the start URL's netloc contains a proprietary marker
(case-insensitive substring), `crawl` raises the policy error before
the traversal runs; and if the aggregated spec's domain or any page
title contains a marker, `generate_scaffold` raises the policy error
with no model call made and no artifact written. -/
theorem C4_policy_aborts (robots : RobotsResponse) (env : CrawlEnv) (startUrl : String)
    (maxPages maxDepth fuel : Nat) (spec : UxSpec) (model : ModelOutcome) :
    ((∃ m ∈ PROPRIETARY_MARKERS_CRAWLER, substrIn m (pyLower (env.netloc startUrl)) = true) →
      crawl robots env startUrl maxPages maxDepth fuel = Except.error crawlPolicyMessage) ∧
    (((∃ m ∈ GEN_MARKERS, substrIn m (pyLower (spec.domain.getD "")) = true) ∨
      (∃ p ∈ spec.pages, ∃ m ∈ GEN_MARKERS, substrIn m (pyLower (p.title.getD "")) = true)) →
      generate_scaffold spec model =
        { error := some genPolicyMessage, modelCalled := false,
          artifactWritten := false, files := [] }) := by
  constructor
  · intro h
    have hl : likely_proprietary_domain env startUrl = true := by
      rw [likely_proprietary_domain, List.any_eq_true]
      obtain ⟨m, hm, hs⟩ := h
      exact ⟨m, hm, hs⟩
    simp [crawl, hl]
  · intro h
    have hl : likely_proprietary_spec spec = true := by
      unfold likely_proprietary_spec
      rcases h with h | h
      · rw [if_pos]
        rw [List.any_eq_true]
        obtain ⟨m, hm, hs⟩ := h
        exact ⟨m, hm, hs⟩
      · by_cases hd : GEN_MARKERS.any (fun x => substrIn x (pyLower (spec.domain.getD "")))
        · simp [hd]
        · rw [if_neg (by simpa using hd), List.any_eq_true]
          obtain ⟨p, hp, m, hm, hs⟩ := h
          exact ⟨p, hp, List.any_eq_true.mpr ⟨m, hm, hs⟩⟩
    simp [generate_scaffold, hl]

/-- A crawl environment whose start netloc is an Instagram host. -/
def c4Env : CrawlEnv :=
  { netloc := fun _ => "www.instagram.com"
    urljoin := fun _ href => href
    fetch := fun _ => { hrefs := [], snippetText := "", screenshotExists := true }
    htmlPathOf := fun u => u
    shotPathOf := fun u => u }

/-- An aggregated spec whose domain carries a proprietary marker. -/
def c4Spec : UxSpec := { domain := some "m.uber.com", pages := [] }

/-- Witness for C4 at concrete inputs. -/
theorem C4_policy_aborts_witness :
    crawl RobotsResponse.netError c4Env "https://www.instagram.com/" 3 2 3 =
        Except.error crawlPolicyMessage ∧
    generate_scaffold c4Spec ModelOutcome.unavailable =
        { error := some genPolicyMessage, modelCalled := false,
          artifactWritten := false, files := [] } :=
  ⟨(C4_policy_aborts RobotsResponse.netError c4Env "https://www.instagram.com/" 3 2 3
      c4Spec ModelOutcome.unavailable).1 (by decide),
   (C4_policy_aborts RobotsResponse.netError c4Env "https://www.instagram.com/" 3 2 3
      c4Spec ModelOutcome.unavailable).2 (Or.inl (by decide))⟩

/-! ## C1 — assembler totality -/

theorem getKey_setKey_self (m : List (String × String)) (k v : String) :
    getKey (setKey m k v) k = some v := by
  induction m with
  | nil => simp [setKey, getKey]
  | cons p t ih =>
    by_cases h : p.1 = k
    · simp [setKey, h, getKey]
    · simp [setKey, h, getKey, ih]

theorem getKey_setKey_ne (m : List (String × String)) (k v k' : String) (h : k' ≠ k) :
    getKey (setKey m k v) k' = getKey m k' := by
  have hks : k ≠ k' := Ne.symm h
  induction m with
  | nil => simp [setKey, getKey, hks]
  | cons p t ih =>
    by_cases hp : p.1 = k
    · have hpk : p.1 ≠ k' := by rw [hp]; exact hks
      simp [setKey, hp, getKey, hpk, hks]
    · simp only [setKey, hp, if_false, getKey]
      by_cases hk : p.1 = k'
      · simp [hk]
      · simp [hk, ih]

theorem getKey_fillFrontend_ne (fns : List String) (m : List (String × String)) (k : String)
    (h : ∀ fn ∈ fns, fn ≠ k) :
    getKey (fillFrontend fns m) k = getKey m k := by
  induction fns generalizing m with
  | nil => rfl
  | cons fn fns ih =>
    have hk : fn ≠ k := h fn (by simp)
    have hrest : ∀ f ∈ fns, f ≠ k := fun f hf => h f (by simp [hf])
    unfold fillFrontend
    cases hg : getKey m fn with
    | some v => exact ih _ hrest
    | none => rw [ih _ hrest, getKey_setKey_ne _ _ _ _ hk.symm]

theorem getKey_fillFrontend_isSome (fns : List String) (m : List (String × String))
    (k : String) (h : (getKey m k).isSome = true) :
    (getKey (fillFrontend fns m) k).isSome = true := by
  induction fns generalizing m with
  | nil => exact h
  | cons fn fns ih =>
    unfold fillFrontend
    cases hg : getKey m fn with
    | some v => exact ih _ h
    | none =>
      apply ih
      by_cases hk : k = fn
      · subst hk
        rw [getKey_setKey_self]
        rfl
      · rw [getKey_setKey_ne _ _ _ _ hk]
        exact h

theorem getKey_fillFrontend_mem (fns : List String) (m : List (String × String))
    (fn : String) (h : fn ∈ fns) :
    (getKey (fillFrontend fns m) fn).isSome = true := by
  induction fns generalizing m with
  | nil => cases h
  | cons f fns ih =>
    unfold fillFrontend
    rcases List.mem_cons.mp h with he | hm
    · subst he
      cases hg : getKey m fn with
      | some v => exact getKey_fillFrontend_isSome fns _ fn (by simp [hg])
      | none =>
        apply getKey_fillFrontend_isSome fns _ fn
        rw [getKey_setKey_self]
        rfl
    · cases hg : getKey m f with
      | some v => exact ih _ hm
      | none => exact ih _ hm

theorem serverFixed_spec (f0 : List (String × String)) :
    ∃ sp, getKey (serverFixed f0) "server.py" = some sp ∧
      (sp = defaultServerPy ∨
        (getKey f0 "server.py" = some sp ∧
          50 ≤ (pyStripS sp).data.length ∧ substrIn "\n" sp = true)) := by
  unfold serverFixed
  by_cases h :
      (pyStripS ((getKey f0 "server.py").getD "")).data.length < 50 ∨
        substrIn "\n" ((getKey f0 "server.py").getD "") = false
  · rw [if_pos h]
    exact ⟨_, getKey_setKey_self _ _ _, Or.inl rfl⟩
  · rw [if_neg h]
    push_neg at h
    obtain ⟨h1, h2⟩ := h
    cases hg : getKey f0 "server.py" with
    | none =>
      rw [hg] at h1
      exact absurd h1 (by decide)
    | some v =>
      rw [hg] at h1 h2
      simp only [Option.getD_some] at h1 h2
      have hb : substrIn "\n" v = true := by
        cases hbv : substrIn "\n" v
        · exact absurd hbv h2
        · rfl
      exact ⟨v, rfl, Or.inr ⟨rfl, h1, hb⟩⟩

theorem requirementsFixed_spec (f1 : List (String × String)) :
    ∃ r, getKey (requirementsFixed f1) "requirements.txt" = some r ∧ pyStripS r ≠ "" := by
  unfold requirementsFixed
  cases hg : getKey f1 "requirements.txt" with
  | none => exact ⟨_, getKey_setKey_self _ _ _, by decide⟩
  | some r =>
    dsimp only
    by_cases h : pyStripS r = ""
    · rw [if_pos h]
      exact ⟨_, getKey_setKey_self _ _ _, by decide⟩
    · rw [if_neg h]
      exact ⟨r, hg, h⟩

theorem getKey_requirementsFixed_server (f1 : List (String × String)) :
    getKey (requirementsFixed f1) "server.py" = getKey f1 "server.py" := by
  unfold requirementsFixed
  cases hg : getKey f1 "requirements.txt" with
  | none => exact getKey_setKey_ne _ _ _ _ (by decide)
  | some r =>
    dsimp only
    by_cases h : pyStripS r = ""
    · rw [if_pos h]
      exact getKey_setKey_ne _ _ _ _ (by decide)
    · rw [if_neg h]

/-- C1: for every model-output file map, the assembled map contains
every required frontend file, a `requirements.txt` that is non-blank,
and a `server.py` that is either the default or the model-overlaid
value — the latter only when its stripped length is at least 50 and it
contains a line break. -/
theorem C1_assembler_totality (modelFiles : List (String × String)) :
    (NEEDED_FRONTEND.all fun fn => (getKey (assembleFiles modelFiles) fn).isSome) = true ∧
    (∃ r, getKey (assembleFiles modelFiles) "requirements.txt" = some r ∧ pyStripS r ≠ "") ∧
    (∃ sp, getKey (assembleFiles modelFiles) "server.py" = some sp ∧
      (sp = defaultServerPy ∨
        (getKey (overlayModel modelFiles) "server.py" = some sp ∧
          50 ≤ (pyStripS sp).data.length ∧ substrIn "\n" sp = true))) := by
  refine ⟨?_, ?_, ?_⟩
  · rw [List.all_eq_true]
    intro fn hfn
    exact getKey_fillFrontend_mem _ _ fn hfn
  · obtain ⟨r, hr, hne⟩ := requirementsFixed_spec (serverFixed (overlayModel modelFiles))
    refine ⟨r, ?_, hne⟩
    unfold assembleFiles
    rw [getKey_fillFrontend_ne _ _ _ (by decide), hr]
  · obtain ⟨sp, hsp, hor⟩ := serverFixed_spec (overlayModel modelFiles)
    refine ⟨sp, ?_, hor⟩
    unfold assembleFiles
    rw [getKey_fillFrontend_ne _ _ _ (by decide), getKey_requirementsFixed_server, hsp]

/-! ## Crawl-loop invariants (C2, C5, C8, C10) -/

/-- The inductive invariant of the crawl loop: visited URLs are
distinct and within budget, results track visited in lockstep and hold
exactly the built records, every logged enqueue happened under the
page budget and for an unvisited URL, and every queued or dequeued
task depth is at most `maxDepth + 1`. -/
structure CrawlInv (env : CrawlEnv) (startUrl : String) (maxPages maxDepth : Nat)
    (s : CrawlState) : Prop where
  nodup : s.visited.Nodup
  vbound : s.visited.length ≤ maxPages
  keys : s.results.map Prod.fst = s.visited
  recs : ∀ p ∈ s.results, p.2 = buildRecord env startUrl p.1
  enqBound : ∀ e ∈ s.enq, e.visitedLen + e.queueLen < maxPages
  enqNotVisited : ∀ e ∈ s.enq, e.alreadyVisited = false
  queueDepth : ∀ t ∈ s.queue, t.depth ≤ maxDepth + 1
  deqDepth : ∀ t ∈ s.deq, t.depth ≤ maxDepth + 1

theorem nodup_append_singleton {α} (l : List α) (a : α)
    (h : l.Nodup) (ha : a ∉ l) : (l ++ [a]).Nodup := by
  rw [List.nodup_append]
  exact ⟨h, List.nodup_singleton a, by simpa [List.disjoint_singleton] using ha⟩

theorem enqueueLinks_inv (env : CrawlEnv) (startUrl : String)
    (maxPages maxDepth depth : Nat) (hd : depth ≤ maxDepth) (links : List String)
    (s : CrawlState) (h : CrawlInv env startUrl maxPages maxDepth s) :
    CrawlInv env startUrl maxPages maxDepth (enqueueLinks maxPages depth links s) ∧
    (enqueueLinks maxPages depth links s).visited = s.visited ∧
    (enqueueLinks maxPages depth links s).results = s.results := by
  induction links generalizing s with
  | nil => exact ⟨h, rfl, rfl⟩
  | cons l ls ih =>
    have hstep : enqueueLinks maxPages depth (l :: ls) s =
        enqueueLinks maxPages depth ls
          (if l ∉ s.visited ∧ s.visited.length + s.queue.length < maxPages then
            { s with
              queue := s.queue ++ [⟨l, depth + 1⟩]
              enq := s.enq ++ [⟨l, depth + 1, s.visited.length, s.queue.length,
                               s.queue.any (fun t => decide (t.url = l)),
                               decide (l ∈ s.visited)⟩] }
          else s) := rfl
    rw [hstep]
    by_cases hc : l ∉ s.visited ∧ s.visited.length + s.queue.length < maxPages
    · rw [if_pos hc]
      refine ih _ ⟨h.nodup, h.vbound, h.keys, h.recs, ?_, ?_, ?_, h.deqDepth⟩
      · intro e he
        rcases List.mem_append.mp he with h1 | h1
        · exact h.enqBound e h1
        · rw [List.mem_singleton] at h1
          subst h1
          exact hc.2
      · intro e he
        rcases List.mem_append.mp he with h1 | h1
        · exact h.enqNotVisited e h1
        · rw [List.mem_singleton] at h1
          subst h1
          exact decide_eq_false hc.1
      · intro t ht
        rcases List.mem_append.mp ht with h1 | h1
        · exact h.queueDepth t h1
        · rw [List.mem_singleton] at h1
          subst h1
          exact Nat.succ_le_succ hd
    · rw [if_neg hc]
      exact ih _ h

theorem crawlStep_inv (env : CrawlEnv) (startUrl : String) (maxPages maxDepth : Nat)
    (s : CrawlState) (h : CrawlInv env startUrl maxPages maxDepth s)
    (hlt : s.visited.length < maxPages) :
    CrawlInv env startUrl maxPages maxDepth (crawlStep env startUrl maxPages maxDepth s) := by
  unfold crawlStep
  cases hq : s.queue with
  | nil => exact h
  | cons t rest =>
    have htq : t ∈ s.queue := by rw [hq]; exact List.mem_cons_self _ _
    have hrest : ∀ t' ∈ rest, t' ∈ s.queue := fun t' ht' => by
      rw [hq]; exact List.mem_cons_of_mem _ ht'
    have hdeq : ∀ t' ∈ s.deq ++ [t], t'.depth ≤ maxDepth + 1 := by
      intro t' ht'
      rcases List.mem_append.mp ht' with h1 | h1
      · exact h.deqDepth t' h1
      · rw [List.mem_singleton] at h1
        subst h1
        exact h.queueDepth _ htq
    dsimp only
    by_cases hskip : t.url ∈ s.visited ∨ maxDepth < t.depth
    · rw [if_pos hskip]
      exact ⟨h.nodup, h.vbound, h.keys, h.recs, h.enqBound, h.enqNotVisited,
        fun t' ht' => h.queueDepth t' (hrest t' ht'), hdeq⟩
    · rw [if_neg hskip]
      push_neg at hskip
      obtain ⟨hnv, hdep⟩ := hskip
      have hs2 : CrawlInv env startUrl maxPages maxDepth
          { s with
            queue := rest
            deq := s.deq ++ [t]
            results := s.results ++ [(t.url, buildRecord env startUrl t.url)]
            visited := s.visited ++ [t.url] } := by
        refine ⟨?_, ?_, ?_, ?_, h.enqBound, h.enqNotVisited, ?_, hdeq⟩
        · exact nodup_append_singleton _ _ h.nodup hnv
        · show (s.visited ++ [t.url]).length ≤ maxPages
          rw [List.length_append, List.length_singleton]
          exact Nat.succ_le_of_lt hlt
        · show (s.results ++ [(t.url, buildRecord env startUrl t.url)]).map Prod.fst =
            s.visited ++ [t.url]
          rw [List.map_append, h.keys]
          rfl
        · intro p hp
          rcases List.mem_append.mp hp with h1 | h1
          · exact h.recs p h1
          · rw [List.mem_singleton] at h1
            subst h1
            rfl
        · intro t' ht'
          exact h.queueDepth t' (hrest t' ht')
      exact (enqueueLinks_inv env startUrl maxPages maxDepth t.depth hdep _ _ hs2).1

theorem crawlLoop_inv (env : CrawlEnv) (startUrl : String) (maxPages maxDepth : Nat)
    (fuel : Nat) (s : CrawlState) (h : CrawlInv env startUrl maxPages maxDepth s) :
    CrawlInv env startUrl maxPages maxDepth
      (crawlLoop env startUrl maxPages maxDepth fuel s) := by
  induction fuel generalizing s with
  | zero => exact h
  | succ n ih =>
    unfold crawlLoop
    by_cases hc : s.queue ≠ [] ∧ s.visited.length < maxPages
    · rw [if_pos hc]
      exact ih _ (crawlStep_inv env startUrl maxPages maxDepth s h hc.2)
    · rw [if_neg hc]
      exact h

theorem initState_inv (env : CrawlEnv) (startUrl : String) (maxPages maxDepth : Nat) :
    CrawlInv env startUrl maxPages maxDepth (initState startUrl) := by
  refine ⟨?_, ?_, ?_, ?_, ?_, ?_, ?_, ?_⟩ <;> simp [initState]

/-! ## C2 — crawl budget and uniqueness invariants -/

/-- C2: at every point of the traversal (every fuel value), the
visited list is duplicate-free and within `maxPages`, every executed
enqueue happened while `|visited| + |queue| < maxPages`, and the
results keys equal the visited list — one `PageRecord` per visited
URL, regardless of capture success (the environment is arbitrary). -/
theorem C2_crawl_invariants (env : CrawlEnv) (startUrl : String)
    (maxPages maxDepth fuel : Nat) :
    (crawlLoop env startUrl maxPages maxDepth fuel (initState startUrl)).visited.Nodup ∧
    (crawlLoop env startUrl maxPages maxDepth fuel (initState startUrl)).visited.length
        ≤ maxPages ∧
    ((crawlLoop env startUrl maxPages maxDepth fuel (initState startUrl)).enq.all
        fun e => decide (e.visitedLen + e.queueLen < maxPages)) = true ∧
    (crawlLoop env startUrl maxPages maxDepth fuel (initState startUrl)).results.map Prod.fst
      = (crawlLoop env startUrl maxPages maxDepth fuel (initState startUrl)).visited := by
  have h := crawlLoop_inv env startUrl maxPages maxDepth fuel _
    (initState_inv env startUrl maxPages maxDepth)
  refine ⟨h.nodup, h.vbound, ?_, h.keys⟩
  rw [List.all_eq_true]
  intro e he
  exact decide_eq_true (h.enqBound e he)

/-! ## C5 — queue-entry uniqueness fails; the amended invariant -/

/-- A site where two pages (`a` and `b`) both link to a third (`c`):
`c` is enqueued twice, and with `maxDepth = 1` it is dequeued at
depth 2. -/
def c5Env : CrawlEnv :=
  { netloc := fun _ => "h"
    urljoin := fun _ href => href
    fetch := fun u =>
      if u = "s" then { hrefs := ["a", "b"], snippetText := "", screenshotExists := true }
      else if u = "a" then { hrefs := ["c"], snippetText := "", screenshotExists := true }
      else if u = "b" then { hrefs := ["c"], snippetText := "", screenshotExists := true }
      else { hrefs := [], snippetText := "", screenshotExists := true }
    htmlPathOf := fun u => u
    shotPathOf := fun u => u }

/-- C5 counterexample: on `c5Env` with `maxPages = 10`, `maxDepth = 1`,
the claim's conjunction fails — URL `c` is enqueued while already
present in the queue (the source only checks `l not in visited`,
crawler.py line 103), and a task of depth 2 (` > maxDepth`) is
dequeued (depth is only filtered after dequeue, line 51). -/
theorem C5_queue_counterexample :
    ¬ ((((crawlLoop c5Env "s" 10 1 10 (initState "s")).enq.all
          fun e => !e.alreadyInQueue) = true) ∧
       (((crawlLoop c5Env "s" 10 1 10 (initState "s")).deq.all
          fun t => decide (t.depth ≤ 1)) = true)) := by
  decide

/-- C5 amended: no *visited* URL is ever enqueued again (URLs may
re-enter the queue while merely pending), and every dequeued task has
depth at most `maxDepth + 1` — tasks exceeding `maxDepth` are
discarded after dequeue without being captured. -/
theorem C5_queue_amended (env : CrawlEnv) (startUrl : String)
    (maxPages maxDepth fuel : Nat) :
    ((crawlLoop env startUrl maxPages maxDepth fuel (initState startUrl)).enq.all
        fun e => !e.alreadyVisited) = true ∧
    ((crawlLoop env startUrl maxPages maxDepth fuel (initState startUrl)).deq.all
        fun t => decide (t.depth ≤ maxDepth + 1)) = true := by
  have h := crawlLoop_inv env startUrl maxPages maxDepth fuel _
    (initState_inv env startUrl maxPages maxDepth)
  constructor
  · rw [List.all_eq_true]
    intro e he
    rw [h.enqNotVisited e he]
    rfl
  · rw [List.all_eq_true]
    intro t ht
    exact decide_eq_true (h.deqDepth t ht)

/-! ## C8 — link extraction -/

theorem mem_addLink (acc : List String) (x l : String) :
    l ∈ addLink acc x ↔ l ∈ acc ∨ l = x := by
  unfold addLink
  by_cases h : x ∈ acc
  · rw [if_pos h]
    constructor
    · exact Or.inl
    · rintro (h1 | rfl)
      · exact h1
      · exact h
  · rw [if_neg h]
    simp

theorem mem_extract_fold (env : CrawlEnv) (startUrl pageUrl l : String)
    (hs : List String) :
    ∀ acc : List String,
      (l ∈ hs.foldl
          (fun acc href =>
            if strStarts "javascript:" href || strStarts "#" href then acc
            else
              if env.netloc (env.urljoin pageUrl href) = env.netloc startUrl then
                addLink acc (stripFragment (env.urljoin pageUrl href))
              else acc)
          acc ↔
        l ∈ acc ∨ ∃ href ∈ hs,
          strStarts "javascript:" href = false ∧ strStarts "#" href = false ∧
          env.netloc (env.urljoin pageUrl href) = env.netloc startUrl ∧
          l = stripFragment (env.urljoin pageUrl href)) := by
  induction hs with
  | nil =>
    intro acc
    simp
  | cons hrf t ih =>
    intro acc
    rw [List.foldl_cons, ih]
    rw [List.exists_mem_cons_iff]
    cases h1 : strStarts "javascript:" hrf
    · cases h2 : strStarts "#" hrf
      · by_cases h3 : env.netloc (env.urljoin pageUrl hrf) = env.netloc startUrl
        · simp only [h1, h2, Bool.or_self, Bool.false_eq_true, if_false, h3, if_true,
            mem_addLink]
          constructor
          · rintro ((ha | he) | hex)
            · exact Or.inl ha
            · exact Or.inr (Or.inl ⟨trivial, trivial, trivial, he⟩)
            · exact Or.inr (Or.inr hex)
          · rintro (ha | ⟨-, -, -, he⟩ | hex)
            · exact Or.inl (Or.inl ha)
            · exact Or.inl (Or.inr he)
            · exact Or.inr hex
        · simp only [h1, h2, Bool.or_self, Bool.false_eq_true, if_false, h3, if_false]
          constructor
          · rintro (ha | hex)
            · exact Or.inl ha
            · exact Or.inr (Or.inr hex)
          · rintro (ha | ⟨-, -, hc, -⟩ | hex)
            · exact Or.inl ha
            · exact hc.elim
            · exact Or.inr hex
      · simp only [h1, h2, Bool.or_true, if_true]
        constructor
        · rintro (ha | hex)
          · exact Or.inl ha
          · exact Or.inr (Or.inr hex)
        · rintro (ha | ⟨-, hc, -, -⟩ | hex)
          · exact Or.inl ha
          · simp at hc
          · exact Or.inr hex
    · simp only [h1, Bool.true_or, if_true]
      constructor
      · rintro (ha | hex)
        · exact Or.inl ha
        · exact Or.inr (Or.inr hex)
      · rintro (ha | ⟨hc, -, -, -⟩ | hex)
        · exact Or.inl ha
        · simp at hc
        · exact Or.inr hex

/-- C8: for every record in the crawl results, a URL is in the
recorded link set exactly when it is the fragment-stripped resolution
of one of the page's anchor hrefs that is neither `javascript:`-scheme
nor a pure fragment, and whose resolved host equals the start URL's
host. -/
theorem C8_link_extraction (env : CrawlEnv) (startUrl : String)
    (maxPages maxDepth fuel : Nat) (u : String) (pr : PageRecord)
    (h : (u, pr) ∈ (crawlLoop env startUrl maxPages maxDepth fuel (initState startUrl)).results)
    (l : String) :
    l ∈ pr.links ↔
      ∃ href ∈ (env.fetch u).hrefs,
        strStarts "javascript:" href = false ∧ strStarts "#" href = false ∧
        env.netloc (env.urljoin u href) = env.netloc startUrl ∧
        l = stripFragment (env.urljoin u href) := by
  have hinv := crawlLoop_inv env startUrl maxPages maxDepth fuel _
    (initState_inv env startUrl maxPages maxDepth)
  have hrec : pr = buildRecord env startUrl u := hinv.recs _ h
  rw [hrec]
  show l ∈ extractLinks env startUrl u (env.fetch u).hrefs ↔ _
  rw [extractLinks]
  rw [mem_extract_fold env startUrl u l (env.fetch u).hrefs []]
  simp

/-- A one-page site exercising every link-extraction filter. -/
def c8Env : CrawlEnv :=
  { netloc := fun _ => "h"
    urljoin := fun _ href => href
    fetch := fun _ =>
      { hrefs := ["a", "javascript:v", "#frag", "a#sec"], snippetText := ""
        screenshotExists := true }
    htmlPathOf := fun u => u
    shotPathOf := fun u => u }

/-- Witness for C8 at a concrete crawl. -/
theorem C8_link_extraction_witness :
    "a" ∈ (buildRecord c8Env "s" "s").links ↔
      ∃ href ∈ (c8Env.fetch "s").hrefs,
        strStarts "javascript:" href = false ∧ strStarts "#" href = false ∧
        c8Env.netloc (c8Env.urljoin "s" href) = c8Env.netloc "s" ∧
        "a" = stripFragment (c8Env.urljoin "s" href) :=
  C8_link_extraction c8Env "s" 5 2 3 "s" (buildRecord c8Env "s" "s") (by decide) "a"

/-! ## C10 — record fields under capture failure -/

/-- C10: every returned record stores the html output path
unconditionally (capture failure is never signalled by a null html
field), while the screenshot field is null exactly when the screenshot
file does not exist. -/
theorem C10_page_record_fields (env : CrawlEnv) (startUrl : String)
    (maxPages maxDepth fuel : Nat) (u : String) (pr : PageRecord)
    (h : (u, pr) ∈ (crawlLoop env startUrl maxPages maxDepth fuel (initState startUrl)).results) :
    pr.html = some (env.htmlPathOf u) ∧
    (pr.screenshot = none ↔ (env.fetch u).screenshotExists = false) := by
  have hinv := crawlLoop_inv env startUrl maxPages maxDepth fuel _
    (initState_inv env startUrl maxPages maxDepth)
  have hrec : pr = buildRecord env startUrl u := hinv.recs _ h
  rw [hrec]
  constructor
  · rfl
  · show (if (env.fetch u).screenshotExists then some (env.shotPathOf u) else none) = none ↔ _
    cases hs : (env.fetch u).screenshotExists
    · simp [hs]
    · simp [hs]

/-- A crawl whose screenshot attempt failed (file not created) and
whose content retrieval failed (empty document). -/
def c10Env : CrawlEnv :=
  { netloc := fun _ => "h"
    urljoin := fun _ href => href
    fetch := fun _ => { hrefs := [], snippetText := "", screenshotExists := false }
    htmlPathOf := fun u => u
    shotPathOf := fun u => u }

/-- Witness for C10 at a concrete failed capture. -/
theorem C10_page_record_fields_witness :
    (buildRecord c10Env "s" "s").html = some (c10Env.htmlPathOf "s") ∧
    ((buildRecord c10Env "s" "s").screenshot = none ↔
      (c10Env.fetch "s").screenshotExists = false) :=
  C10_page_record_fields c10Env "s" 3 2 3 "s" (buildRecord c10Env "s" "s") (by decide)

/-! ## C9 — clickable classification -/

theorem filter_click_map_of_pos {α} (f : α → Component)
    (h : ∀ a, Component.isClickable (f a) = true) (l : List α) :
    (l.map f).filter Component.isClickable = l.map f := by
  induction l with
  | nil => rfl
  | cons d t ih => simp [List.filter_cons, h d, ih]

theorem filter_click_map_of_neg {α} (f : α → Component)
    (h : ∀ a, Component.isClickable (f a) = false) (l : List α) :
    (l.map f).filter Component.isClickable = [] := by
  induction l with
  | nil => rfl
  | cons d t ih => simp [List.filter_cons, h d, ih]

theorem filter_click_imagesComps (all : List Dom) :
    (imagesComps all).filter Component.isClickable = [] := by
  unfold imagesComps
  dsimp only
  split
  · rfl
  · rfl

theorem filter_click_headingsComps (all : List Dom) :
    (headingsComps all).filter Component.isClickable = [] := by
  unfold headingsComps
  dsimp only
  split
  · rfl
  · rfl

/-- C9: the clickable entries of a classified document are exactly one
per button, anchor, or input element, in document order; each carries
the role `link` for anchors, `button` for buttons and `input`
otherwise, and the element's text — falling back to its `value`, then
`aria-label` attribute when the text is empty — stripped and truncated
to 200 characters. -/
theorem C9_clickable_entries (doc : List Dom) (url : Option String) :
    ((extract_components_from_html doc url).components.filter Component.isClickable) =
      ((elemsL doc).filter isBAI).map fun b =>
        Component.clickable b.tag
          (if b.tag = "a" then "link" else if b.tag = "button" then "button" else "input")
          ((b.attr "type").getD "")
          (pyTake 200 (pyStripS
            (if getText b ≠ "" then getText b
             else if (b.attr "value").getD "" ≠ "" then (b.attr "value").getD ""
             else (b.attr "aria-label").getD "")))
          (b.attr "id")
          (classListOf b) := by
  unfold extract_components_from_html
  dsimp only
  rw [List.filter_append, List.filter_append, List.filter_append, List.filter_append,
    List.filter_append, List.filter_append]
  rw [filter_click_map_of_pos clickableOf (fun a => rfl),
    filter_click_map_of_neg formOf (fun a => rfl),
    filter_click_map_of_neg navOf (fun a => rfl),
    filter_click_map_of_neg listOf (fun a => rfl),
    filter_click_map_of_neg tableOf (fun a => rfl),
    filter_click_imagesComps, filter_click_headingsComps]
  simp only [List.append_nil]
  rfl
